import Mathlib

/-!
Verification development for the MD_REncoder rotary-encoder library
(src/src/MD_REncoder.cpp together with its header).

The embedding follows the source closely:
* the two quadrature state tables (`FullStep.ttable`, selected when
  ENABLE_HALF_STEP is 0, and `HalfStep.ttable`) are transcribed entry by
  entry with the source's state names;
* the `MD_REncoder` object is a record of the class's fields, with machine
  integers modelled as `Nat` reduced modulo the relevant power of two at
  exactly the points where the C arithmetic wraps (uint8 pins, uint16
  count/speed/period, uint32 millis timestamps);
* `read` performs the table lookup `ttable[_state & 0xf][pinstate]` (low
  nibble masking is written `% 16`), the ENABLE_SPEED velocity update, and
  returns `_state & 0x30`.  The lookup is `Option`-valued because the C
  array access is only defined for in-range indices; totality over
  reachable states is proved, not assumed.  The two `millis()` calls of a
  single `read` invocation are modelled as returning the same value `now`.
-/

/-- read() return value DIR_NONE: no complete step/movement (0x00). -/
def DIR_NONE : Nat := 0x00

/-- read() return value DIR_CW: clockwise step/movement (0x10). -/
def DIR_CW : Nat := 0x10

/-- read() return value DIR_CCW: counter-clockwise step/movement (0x20). -/
def DIR_CCW : Nat := 0x20

/-- R_START, the automaton's rest/start node (0x0) in both table variants. -/
def R_START : Nat := 0x0

/-- DEFAULT_PERIOD, the default speed sampling period in ms (500). -/
def DEFAULT_PERIOD : Nat := 500

namespace FullStep

/-- Full-step state R_CW_FINAL (0x1). -/
def R_CW_FINAL : Nat := 0x1

/-- Full-step state R_CW_BEGIN (0x2). -/
def R_CW_BEGIN : Nat := 0x2

/-- Full-step state R_CW_NEXT (0x3). -/
def R_CW_NEXT : Nat := 0x3

/-- Full-step state R_CCW_BEGIN (0x4). -/
def R_CCW_BEGIN : Nat := 0x4

/-- Full-step state R_CCW_FINAL (0x5). -/
def R_CCW_FINAL : Nat := 0x5

/-- Full-step state R_CCW_NEXT (0x6). -/
def R_CCW_NEXT : Nat := 0x6

/-- The full-step transition table of MD_REncoder.cpp (ENABLE_HALF_STEP 0),
row = current state's low nibble, column = pinstate 00, 01, 10, 11. -/
def ttable : List (List Nat) :=
  [ [R_START, R_CW_BEGIN, R_CCW_BEGIN, R_START],
    [R_CW_NEXT, R_START, R_CW_FINAL, R_START ||| DIR_CW],
    [R_CW_NEXT, R_CW_BEGIN, R_START, R_START],
    [R_CW_NEXT, R_CW_BEGIN, R_CW_FINAL, R_START],
    [R_CCW_NEXT, R_START, R_CCW_BEGIN, R_START],
    [R_CCW_NEXT, R_CCW_FINAL, R_START, R_START ||| DIR_CCW],
    [R_CCW_NEXT, R_CCW_FINAL, R_CCW_BEGIN, R_START] ]

end FullStep

namespace HalfStep

/-- Half-step state R_CCW_BEGIN (0x1). -/
def R_CCW_BEGIN : Nat := 0x1

/-- Half-step state R_CW_BEGIN (0x2). -/
def R_CW_BEGIN : Nat := 0x2

/-- Half-step state R_START_M (0x3). -/
def R_START_M : Nat := 0x3

/-- Half-step state R_CW_BEGIN_M (0x4). -/
def R_CW_BEGIN_M : Nat := 0x4

/-- Half-step state R_CCW_BEGIN_M (0x5). -/
def R_CCW_BEGIN_M : Nat := 0x5

/-- The half-step transition table of MD_REncoder.cpp (ENABLE_HALF_STEP 1),
row = current state's low nibble, column = pinstate 00, 01, 10, 11. -/
def ttable : List (List Nat) :=
  [ [R_START_M, R_CW_BEGIN, R_CCW_BEGIN, R_START],
    [R_START_M ||| DIR_CCW, R_START, R_CCW_BEGIN, R_START],
    [R_START_M ||| DIR_CW, R_CW_BEGIN, R_START, R_START],
    [R_START_M, R_CCW_BEGIN_M, R_CW_BEGIN_M, R_START],
    [R_START_M, R_START_M, R_CW_BEGIN_M, R_START ||| DIR_CW],
    [R_START_M, R_CCW_BEGIN_M, R_START_M, R_START ||| DIR_CCW] ]

end HalfStep

/-- The fields of the MD_REncoder class: pins (uint8), latest raw table
entry `_state` (uint8), and the ENABLE_SPEED velocity fields `_period`,
`_count`, `_spd` (uint16) and `_timeLast` (uint32). -/
structure MD_REncoder where
  _pinA : Nat
  _pinB : Nat
  _state : Nat
  _period : Nat
  _count : Nat
  _spd : Nat
  _timeLast : Nat
deriving Repr, DecidableEq

/-- The MD_REncoder constructor: stores the (uint8) pins, sets `_state` to
R_START and `_spd = 0`, `_count = 0`, `_period = DEFAULT_PERIOD`,
`_timeLast = 0`. -/
def mkEncoder (pinA pinB : Nat) : MD_REncoder :=
  { _pinA := pinA % 256, _pinB := pinB % 256, _state := R_START,
    _period := DEFAULT_PERIOD, _count := 0, _spd := 0, _timeLast := 0 }

/-- pinstate = (digitalRead(_pinB) << 1) | digitalRead(_pinA): bit0 is
line A, bit1 is line B. -/
def pinstate (a b : Bool) : Nat := (cond b 1 0) * 2 + (cond a 1 0)

/-- The table access ttable[s & 0xf][x].  The C array access is defined
only for indices inside the compiled table, hence the Option result;
masking the low nibble is written `% 16`. -/
def tlookup (tt : List (List Nat)) (s x : Nat) : Option Nat :=
  match tt.get? (s % 16) with
  | none => none
  | some row => row.get? x

/-- The uint32 difference millis() - _timeLast used by the speed update. -/
def elapsed (timeLast now : Nat) : Nat :=
  (now % 4294967296 + 4294967296 - timeLast % 4294967296) % 4294967296

/-- The ENABLE_SPEED block of read() followed by storing the new state:
increment `_count` (uint16) when the new state has emit bits, then, when
`millis() - _timeLast >= _period`, set `_spd = _count * (1000 / _period)`
(uint16, integer division first), `_timeLast = millis()` and `_count = 0`. -/
def readUpdate (e : MD_REncoder) (st now : Nat) : MD_REncoder :=
  let cnt := if st &&& 0x30 ≠ 0 then (e._count + 1) % 65536 else e._count
  if e._period ≤ elapsed e._timeLast now then
    { e with
      _state := st,
      _count := 0,
      _spd := cnt * (1000 / e._period) % 65536,
      _timeLast := now % 4294967296 }
  else
    { e with _state := st, _count := cnt }

/-- MD_REncoder::read(): look up `ttable[_state & 0xf][pinstate]`, run the
speed update, and return the emit bits `_state & 0x30` of the new state.
The sampled pin levels `a`, `b` and the millis() value `now` are inputs. -/
def MD_REncoder.read (tt : List (List Nat)) (e : MD_REncoder) (a b : Bool) (now : Nat) :
    Option (Nat × MD_REncoder) :=
  match tlookup tt e._state (pinstate a b) with
  | none => none
  | some st => some (st &&& 0x30, readUpdate e st now)

/-- MD_REncoder::setPeriod(uint16_t t): store t as the speed sampling
period when t is nonzero and at most 1000, otherwise do nothing.  The
uint16_t parameter is modelled by reducing `t` modulo 2^16. -/
def setPeriod (e : MD_REncoder) (t : Nat) : MD_REncoder :=
  if t % 65536 ≠ 0 ∧ t % 65536 ≤ 1000 then { e with _period := t % 65536 } else e

/-- MD_REncoder::speed(): return the last calculated speed `_spd`. -/
def speed (e : MD_REncoder) : Nat := e._spd

/-- Poll the decoder once per element of the input list (pin levels and the
millis() value of that poll), collecting the returned events. -/
def runReads (tt : List (List Nat)) (e : MD_REncoder) :
    List (Bool × Bool × Nat) → Option (List Nat × MD_REncoder)
  | [] => some ([], e)
  | (a, b, now) :: rest =>
    match MD_REncoder.read tt e a b now with
    | none => none
    | some (ev, e₁) =>
      match runReads tt e₁ rest with
      | none => none
      | some (evs, ef) => some (ev :: evs, ef)

/-- Poll input with both lines low (sample 00) at time `now`. -/
def inp00 (now : Nat) : Bool × Bool × Nat := (false, false, now)

/-- Poll input with line A high, line B low (sample 01) at time `now`. -/
def inp01 (now : Nat) : Bool × Bool × Nat := (true, false, now)

/-- Poll input with line A low, line B high (sample 10) at time `now`. -/
def inp10 (now : Nat) : Bool × Bool × Nat := (false, true, now)

/-- Poll input with both lines high (sample 11) at time `now`. -/
def inp11 (now : Nat) : Bool × Bool × Nat := (true, true, now)

/-- One complete clockwise quadrature cycle as seen by the pins (pull-up
polarity, rest level 11): samples 01, 00, 10, 11, all polled at millis()
value 0. -/
def cwCycle : List (Bool × Bool × Nat) := [inp01 0, inp00 0, inp10 0, inp11 0]

/-- The concatenation of `n` clockwise cycles. -/
def cwCycles (n : Nat) : List (Bool × Bool × Nat) :=
  List.flatten (List.replicate n cwCycle)

/-- The sample on which the full-step table enters each mid-cycle state:
an entry of the table has low nibble `s` (for `1 ≤ s ≤ 6`) only in the
column `entrySample s` (this is proved, not assumed, in the theorem for
claim C7).  A physically implausible signal jump from such a state flips
both lines at once, i.e. polls the bitwise complement
`entrySample s ^^^ 3` of that sample. -/
def entrySample : Nat → Nat
  | 1 => 2
  | 2 => 1
  | 3 => 0
  | 4 => 2
  | 5 => 1
  | 6 => 0
  | _ => 0

theorem pinstate_lt (a b : Bool) : pinstate a b < 4 := by
  cases a <;> cases b <;> decide

theorem tlookup_mod (tt : List (List Nat)) (s x : Nat) :
    tlookup tt s x = tlookup tt (s % 16) x := by
  unfold tlookup
  have h : s % 16 % 16 = s % 16 := by omega
  rw [h]

theorem readUpdate_state (e : MD_REncoder) (st now : Nat) :
    (readUpdate e st now)._state = st := by
  unfold readUpdate
  split <;> split <;> rfl

theorem read_some_inv (tt : List (List Nat)) (e : MD_REncoder) (a b : Bool)
    (now ev : Nat) (e' : MD_REncoder)
    (h : MD_REncoder.read tt e a b now = some (ev, e')) :
    tlookup tt e._state (pinstate a b) = some e'._state ∧
    ev = e'._state &&& 0x30 ∧ e' = readUpdate e e'._state now := by
  unfold MD_REncoder.read at h
  cases hst : tlookup tt e._state (pinstate a b) with
  | none => rw [hst] at h; cases h
  | some st =>
    rw [hst] at h
    simp only [Option.some.injEq, Prod.mk.injEq] at h
    obtain ⟨h1, h2⟩ := h
    have hs : e'._state = st := by rw [← h2, readUpdate_state]
    refine ⟨by rw [hs], by rw [hs, h1], by rw [hs, h2]⟩

theorem read_at_zero_none (tt : List (List Nat)) (pa pb s W c spd st : Nat)
    (a b : Bool) (hW : 0 < W)
    (hst : tlookup tt s (pinstate a b) = some st) (hemit : st &&& 0x30 = 0) :
    MD_REncoder.read tt ⟨pa, pb, s, W, c, spd, 0⟩ a b 0
      = some (DIR_NONE, ⟨pa, pb, st, W, c, spd, 0⟩) := by
  have hel : elapsed 0 0 = 0 := by unfold elapsed; omega
  have hW' : ¬ W ≤ 0 := by omega
  simp [MD_REncoder.read, readUpdate, hst, hel, hW', hemit, DIR_NONE]

theorem read_at_zero_emit (tt : List (List Nat)) (pa pb s W c spd st : Nat)
    (a b : Bool) (hW : 0 < W)
    (hst : tlookup tt s (pinstate a b) = some st) (hemit : st &&& 0x30 ≠ 0) :
    MD_REncoder.read tt ⟨pa, pb, s, W, c, spd, 0⟩ a b 0
      = some (st &&& 0x30, ⟨pa, pb, st, W, (c + 1) % 65536, spd, 0⟩) := by
  have hel : elapsed 0 0 = 0 := by unfold elapsed; omega
  have hW' : ¬ W ≤ 0 := by omega
  simp [MD_REncoder.read, readUpdate, hst, hel, hW', hemit]

theorem read_boundary (tt : List (List Nat)) (e : MD_REncoder) (a b : Bool)
    (now st : Nat)
    (hst : tlookup tt e._state (pinstate a b) = some st)
    (hb : e._period ≤ elapsed e._timeLast now) :
    MD_REncoder.read tt e a b now
      = some (st &&& 0x30,
          { e with
            _state := st,
            _count := 0,
            _spd := (if st &&& 0x30 ≠ 0 then (e._count + 1) % 65536 else e._count)
              * (1000 / e._period) % 65536,
            _timeLast := now % 4294967296 }) := by
  simp only [MD_REncoder.read, readUpdate, hst]
  rw [if_pos hb]

theorem runReads_append_some (tt : List (List Nat)) (e : MD_REncoder)
    (l₁ l₂ : List (Bool × Bool × Nat)) (evs₁ evs₂ : List Nat)
    (e₁ e₂ : MD_REncoder)
    (h₁ : runReads tt e l₁ = some (evs₁, e₁))
    (h₂ : runReads tt e₁ l₂ = some (evs₂, e₂)) :
    runReads tt e (l₁ ++ l₂) = some (evs₁ ++ evs₂, e₂) := by
  induction l₁ generalizing e evs₁ with
  | nil =>
    simp only [runReads, Option.some.injEq, Prod.mk.injEq] at h₁
    obtain ⟨hev, hen⟩ := h₁
    subst hev
    subst hen
    simpa using h₂
  | cons inp l₁' ih =>
    obtain ⟨a, b, now⟩ := inp
    simp only [runReads] at h₁
    cases hr : MD_REncoder.read tt e a b now with
    | none => simp only [hr] at h₁; cases h₁
    | some p =>
      obtain ⟨ev, e'⟩ := p
      simp only [hr] at h₁
      cases hrest : runReads tt e' l₁' with
      | none => simp only [hrest] at h₁; cases h₁
      | some q =>
        obtain ⟨evs', ef⟩ := q
        simp only [hrest, Option.some.injEq, Prod.mk.injEq] at h₁
        obtain ⟨hev, hef⟩ := h₁
        subst hef
        have hx := ih e' evs' hrest
        rw [List.cons_append]
        simp only [runReads, hr]
        rw [hx, ← hev]
        simp

theorem runReads_nil (tt : List (List Nat)) (e : MD_REncoder) :
    runReads tt e [] = some ([], e) := rfl

theorem runReads_cons_some (tt : List (List Nat)) (e e₁ ef : MD_REncoder)
    (a b : Bool) (now ev : Nat) (rest : List (Bool × Bool × Nat))
    (evs : List Nat)
    (h : MD_REncoder.read tt e a b now = some (ev, e₁))
    (h₂ : runReads tt e₁ rest = some (evs, ef)) :
    runReads tt e ((a, b, now) :: rest) = some (ev :: evs, ef) := by
  simp only [runReads, h, h₂]

theorem full_table_closed :
    ∀ m, m < 7 → ∀ x, x < 4 →
      (tlookup FullStep.ttable m x).isSome = true ∧
      ((tlookup FullStep.ttable m x).getD 0) % 16 < 7 := by decide

theorem half_table_closed :
    ∀ m, m < 6 → ∀ x, x < 4 →
      (tlookup HalfStep.ttable m x).isSome = true ∧
      ((tlookup HalfStep.ttable m x).getD 0) % 16 < 6 := by decide

theorem full_emit_only_at_11 :
    ∀ m, m < 7 → ∀ x, x < 4 →
      ((tlookup FullStep.ttable m x).getD 0) &&& 0x30 ≠ 0 → x = 3 := by decide

theorem half_emit_only_rest :
    ∀ m, m < 6 → ∀ x, x < 4 →
      ((tlookup HalfStep.ttable m x).getD 0) &&& 0x30 ≠ 0 →
      x = 0 ∨ x = 3 := by decide

theorem full_repeat_stable :
    ∀ m, m < 7 → ∀ x, x < 4 →
      ((tlookup FullStep.ttable
        ((tlookup FullStep.ttable m x).getD 0) x).getD 0) &&& 0x30 = 0 ∧
      tlookup FullStep.ttable
          ((tlookup FullStep.ttable
            ((tlookup FullStep.ttable m x).getD 0) x).getD 0) x
        = some ((tlookup FullStep.ttable
            ((tlookup FullStep.ttable m x).getD 0) x).getD 0) := by decide

theorem runReads_total_aux (tt : List (List Nat)) (bnd : Nat)
    (htt : ∀ m, m < bnd → ∀ x, x < 4 →
      (tlookup tt m x).isSome = true ∧ ((tlookup tt m x).getD 0) % 16 < bnd) :
    ∀ (inputs : List (Bool × Bool × Nat)) (e : MD_REncoder),
      e._state % 16 < bnd →
      ∃ evs ef, runReads tt e inputs = some (evs, ef) ∧ ef._state % 16 < bnd := by
  intro inputs
  induction inputs with
  | nil => exact fun e he => ⟨[], e, rfl, he⟩
  | cons inp rest ih =>
    intro e he
    obtain ⟨a, b, now⟩ := inp
    have hfact := htt (e._state % 16) he (pinstate a b) (pinstate_lt a b)
    rw [← tlookup_mod] at hfact
    obtain ⟨st, hst⟩ := Option.isSome_iff_exists.mp hfact.1
    have hst7 : st % 16 < bnd := by
      have h2 := hfact.2
      rw [hst] at h2
      simpa using h2
    obtain ⟨evs, ef, hrun, hef⟩ :=
      ih (readUpdate e st now) (by rw [readUpdate_state]; exact hst7)
    refine ⟨(st &&& 0x30) :: evs, ef, ?_, hef⟩
    have hread : MD_REncoder.read tt e a b now
        = some (st &&& 0x30, readUpdate e st now) := by
      unfold MD_REncoder.read
      rw [hst]
    simp only [runReads, hread, hrun]

theorem cwCycle_run (pa pb spd W : Nat) (hW : 0 < W) (s c : Nat)
    (hs : s % 16 = 0) :
    runReads FullStep.ttable ⟨pa, pb, s, W, c, spd, 0⟩ cwCycle
      = some ([DIR_NONE, DIR_NONE, DIR_NONE, DIR_CW],
          ⟨pa, pb, 16, W, (c + 1) % 65536, spd, 0⟩) := by
  have h1 : tlookup FullStep.ttable s (pinstate true false) = some 2 := by
    rw [tlookup_mod, hs]; decide
  have r1 := read_at_zero_none FullStep.ttable pa pb s W c spd 2 true false hW
    h1 (by decide)
  have r2 := read_at_zero_none FullStep.ttable pa pb 2 W c spd 3 false false hW
    (by decide) (by decide)
  have r3 := read_at_zero_none FullStep.ttable pa pb 3 W c spd 1 false true hW
    (by decide) (by decide)
  have r4 := read_at_zero_emit FullStep.ttable pa pb 1 W c spd 16 true true hW
    (by decide) (by decide)
  simp only [cwCycle, inp01, inp00, inp10, inp11, runReads, r1, r2, r3, r4]
  rfl

theorem cwCycles_run (pa pb spd W : Nat) (hW : 0 < W) :
    ∀ (n s c : Nat), s % 16 = 0 → c < 65536 →
    runReads FullStep.ttable ⟨pa, pb, s, W, c, spd, 0⟩ (cwCycles n)
      = some (List.flatten
            (List.replicate n [DIR_NONE, DIR_NONE, DIR_NONE, DIR_CW]),
          ⟨pa, pb, (if n = 0 then s else 16), W, (c + n) % 65536, spd, 0⟩) := by
  intro n
  induction n with
  | zero =>
    intro s c hs hc
    simp [cwCycles, runReads, Nat.mod_eq_of_lt hc]
  | succ n ih =>
    intro s c hs hc
    have hcyc := cwCycle_run pa pb spd W hW s c hs
    have hnext := ih 16 ((c + 1) % 65536) (by norm_num) (by omega)
    have happ := runReads_append_some FullStep.ttable ⟨pa, pb, s, W, c, spd, 0⟩
      cwCycle (cwCycles n) _ _ _ _ hcyc hnext
    have hsplit : cwCycles (n + 1) = cwCycle ++ cwCycles n := by
      simp [cwCycles, List.replicate_succ]
    rw [hsplit, happ]
    have hcount : ((c + 1) % 65536 + n) % 65536 = (c + (n + 1)) % 65536 := by
      omega
    simp [List.replicate_succ, hcount]

/-- Claim C1 counterexample: in full-step mode, polling the decoder from
the initial state through the samples 00, 01, 11, 10, 00 (one per poll)
returns None on every poll, including the final returning 00 sample, so
the claimed single Clockwise event does not occur. -/
theorem C1_counterexample :
    (runReads FullStep.ttable (mkEncoder 2 3)
        [inp00 0, inp01 0, inp11 0, inp10 0, inp00 0]).map (fun p => p.1)
      = some [DIR_NONE, DIR_NONE, DIR_NONE, DIR_NONE, DIR_NONE] ∧
    ¬ (runReads FullStep.ttable (mkEncoder 2 3)
        [inp00 0, inp01 0, inp11 0, inp10 0, inp00 0]).map (fun p => p.1)
      = some [DIR_NONE, DIR_NONE, DIR_NONE, DIR_NONE, DIR_CW] := by decide

/-- Claim C1 (amended): with the pull-up input polarity of the compiled
table the rest position reads 11, so the cycle the full-step decoder
recognises from the initial state is 11, 01, 00, 10, 11: it returns None
on every intermediate sample and exactly one Clockwise event on the final
returning 11 sample; the reverse sequence 11, 10, 00, 01, 11 returns
exactly one CounterClockwise event and never a Clockwise event.  The
claimed sequence 00, 01, 11, 10, 00 returns no event at all. -/
theorem C1_full_cycle :
    (runReads FullStep.ttable (mkEncoder 2 3)
        [inp11 0, inp01 0, inp00 0, inp10 0, inp11 0]).map (fun p => p.1)
      = some [DIR_NONE, DIR_NONE, DIR_NONE, DIR_NONE, DIR_CW] ∧
    (runReads FullStep.ttable (mkEncoder 2 3)
        [inp11 0, inp10 0, inp00 0, inp01 0, inp11 0]).map (fun p => p.1)
      = some [DIR_NONE, DIR_NONE, DIR_NONE, DIR_NONE, DIR_CCW] ∧
    (runReads FullStep.ttable (mkEncoder 2 3)
        [inp00 0, inp01 0, inp11 0, inp10 0, inp00 0]).map (fun p => p.1)
      = some [DIR_NONE, DIR_NONE, DIR_NONE, DIR_NONE, DIR_NONE] ∧
    DIR_CCW ≠ DIR_CW ∧ DIR_CW ≠ DIR_NONE ∧ DIR_CCW ≠ DIR_NONE := by decide

/-- Claim C2 counterexample: the sample sequence 01, 00, 10, 11 from the
initial state emits a Clockwise event on its final poll, whose sample 11
(pinstate 3) is not 00, refuting that events are returned only when the
polled sample is 00. -/
theorem C2_counterexample :
    (runReads FullStep.ttable (mkEncoder 2 3)
        [inp01 0, inp00 0, inp10 0, inp11 0]).map (fun p => p.1)
      = some [DIR_NONE, DIR_NONE, DIR_NONE, DIR_CW] ∧
    pinstate true true ≠ 0 := by decide

/-- Claim C2 (amended): in full-step mode, for every decoder state whose
low nibble indexes the 7-row table (which covers every reachable state)
and every 2-bit sample, a poll returns a nonzero event only when the
polled sample is 11 (pinstate 3) — the rest position under the pull-up
polarity — never on any other sample (in particular never on 00). -/
theorem C2_emit_only_at_rest (e : MD_REncoder) (he : e._state % 16 < 7)
    (a b : Bool) (now ev : Nat) (e₁ : MD_REncoder)
    (h : MD_REncoder.read FullStep.ttable e a b now = some (ev, e₁))
    (hev : ev ≠ DIR_NONE) : pinstate a b = 3 := by
  obtain ⟨hst, hevv, -⟩ := read_some_inv _ _ _ _ _ _ _ h
  have hget : (tlookup FullStep.ttable (e._state % 16) (pinstate a b)).getD 0
      = e₁._state := by
    rw [← tlookup_mod, hst]; rfl
  apply full_emit_only_at_11 (e._state % 16) he (pinstate a b) (pinstate_lt a b)
  rw [hget, ← hevv]
  simpa [DIR_NONE] using hev

/-- Claim C2 witness: a concrete reachable state (R_CW_FINAL, reached via
01, 00, 10) polled with both lines high emits Clockwise, and the theorem
concludes its pinstate is 3. -/
theorem C2_emit_only_at_rest_wit : pinstate true true = 3 :=
  C2_emit_only_at_rest ⟨2, 3, 1, 500, 0, 0, 0⟩ (by decide) true true 0 DIR_CW
    ⟨2, 3, 16, 500, 1, 0, 0⟩ (by decide) (by decide)

/-- Claim C3: from the initial state, every sequence of polls succeeds
(every masked row index hits the compiled table) and keeps the masked
state below the table size: 7 rows in full-step mode, 6 in half-step
mode. -/
theorem C3_poll_total (pa pb : Nat) (inputs : List (Bool × Bool × Nat)) :
    (∃ evs ef, runReads FullStep.ttable (mkEncoder pa pb) inputs
        = some (evs, ef) ∧ ef._state % 16 < 7) ∧
    (∃ evs ef, runReads HalfStep.ttable (mkEncoder pa pb) inputs
        = some (evs, ef) ∧ ef._state % 16 < 6) := by
  constructor
  · exact runReads_total_aux FullStep.ttable 7 full_table_closed inputs
      (mkEncoder pa pb) (by simp [mkEncoder, R_START])
  · exact runReads_total_aux HalfStep.ttable 6 half_table_closed inputs
      (mkEncoder pa pb) (by simp [mkEncoder, R_START])

/-- Claim C4: setPeriod stores t exactly when 0 < t <= 1000, leaves the
encoder unchanged (silently, with no error) for t = 0 or t > 1000, and
after construction the default window is 500 ms; in particular
setPeriod 0 and setPeriod 1001 leave the default window at 500 while
setPeriod 250 changes it to 250. -/
theorem C4_setPeriod (pa pb : Nat) (e : MD_REncoder) (t : Nat)
    (ht : t < 65536) :
    ((0 < t ∧ t ≤ 1000) → setPeriod e t = { e with _period := t }) ∧
    ((t = 0 ∨ 1000 < t) → setPeriod e t = e) ∧
    (mkEncoder pa pb)._period = 500 ∧
    (setPeriod (mkEncoder pa pb) 0)._period = 500 ∧
    (setPeriod (mkEncoder pa pb) 1001)._period = 500 ∧
    (setPeriod (mkEncoder pa pb) 250)._period = 250 := by
  have hmod : t % 65536 = t := Nat.mod_eq_of_lt ht
  refine ⟨?_, ?_, rfl, rfl, rfl, rfl⟩
  · rintro ⟨h1, h2⟩
    unfold setPeriod
    rw [hmod, if_pos ⟨by omega, h2⟩]
  · intro h
    unfold setPeriod
    rw [hmod, if_neg (by omega)]

/-- Claim C4 witness: concrete instances of the setter's accept and
reject branches on a freshly constructed encoder. -/
theorem C4_setPeriod_wit :
    setPeriod (mkEncoder 2 3) 250 = { mkEncoder 2 3 with _period := 250 } ∧
    setPeriod (mkEncoder 2 3) 1001 = mkEncoder 2 3 := by
  have h250 := C4_setPeriod 2 3 (mkEncoder 2 3) 250 (by decide)
  have h1001 := C4_setPeriod 2 3 (mkEncoder 2 3) 1001 (by decide)
  exact ⟨h250.1 ⟨by decide, by decide⟩, h1001.2.1 (Or.inr (by decide))⟩

/-- Claim C9 counterexample: the window-length field is not
zero-initialized at construction; it is DEFAULT_PERIOD = 500. -/
theorem C9_counterexample : ¬ (mkEncoder 2 3)._period = 0 := by decide

/-- Claim C9 (amended): at construction the decoder state is the rest
node R_START and the accumulated count, last-computed rate and
last-boundary timestamp are zero, but the window length is initialized
to DEFAULT_PERIOD = 500 ms, not to zero. -/
theorem C9_init (pa pb : Nat) :
    (mkEncoder pa pb)._state = R_START ∧
    (mkEncoder pa pb)._count = 0 ∧
    (mkEncoder pa pb)._spd = 0 ∧
    (mkEncoder pa pb)._timeLast = 0 ∧
    (mkEncoder pa pb)._period = DEFAULT_PERIOD ∧
    DEFAULT_PERIOD = 500 :=
  ⟨rfl, rfl, rfl, rfl, rfl, rfl⟩

/-- Claim C6 counterexample: reach the reachable state R_CW_FINAL via
samples 01, 00, 10; polling sample 01 moves to R_START, and the repeated
identical poll with 01 then moves the stored state from R_START (0) to
R_CW_BEGIN (2): the second identical poll mutates the stored decoder
state (while still returning None). -/
theorem C6_counterexample :
    runReads FullStep.ttable (mkEncoder 2 3)
        [inp01 0, inp00 0, inp10 0, inp01 0]
      = some ([DIR_NONE, DIR_NONE, DIR_NONE, DIR_NONE],
          ⟨2, 3, 0, 500, 0, 0, 0⟩) ∧
    runReads FullStep.ttable (mkEncoder 2 3)
        [inp01 0, inp00 0, inp10 0, inp01 0, inp01 0]
      = some ([DIR_NONE, DIR_NONE, DIR_NONE, DIR_NONE, DIR_NONE],
          ⟨2, 3, 2, 500, 0, 0, 0⟩) ∧
    (⟨2, 3, 2, 500, 0, 0, 0⟩ : MD_REncoder)._state
      ≠ (⟨2, 3, 0, 500, 0, 0, 0⟩ : MD_REncoder)._state := by decide

/-- Claim C6 (amended): in full-step mode, polling twice with the same
sample never emits an event on the second poll (though the stored state
may still change once more, e.g. from R_START into a begin sub-state);
from the second repetition on the state is a fixed point of that sample,
so the third and every subsequent identical poll returns None and leaves
the stored decoder state unchanged. -/
theorem C6_repeated_poll (e : MD_REncoder) (he : e._state % 16 < 7)
    (a b : Bool) (now₁ now₂ now₃ ev₁ ev₂ ev₃ : Nat) (e₁ e₂ e₃ : MD_REncoder)
    (h₁ : MD_REncoder.read FullStep.ttable e a b now₁ = some (ev₁, e₁))
    (h₂ : MD_REncoder.read FullStep.ttable e₁ a b now₂ = some (ev₂, e₂))
    (h₃ : MD_REncoder.read FullStep.ttable e₂ a b now₃ = some (ev₃, e₃)) :
    ev₂ = DIR_NONE ∧ ev₃ = DIR_NONE ∧ e₃._state = e₂._state ∧
    tlookup FullStep.ttable e₂._state (pinstate a b) = some e₂._state := by
  obtain ⟨hl₁, hv₁, -⟩ := read_some_inv _ _ _ _ _ _ _ h₁
  obtain ⟨hl₂, hv₂, -⟩ := read_some_inv _ _ _ _ _ _ _ h₂
  obtain ⟨hl₃, hv₃, -⟩ := read_some_inv _ _ _ _ _ _ _ h₃
  have hfact := full_repeat_stable (e._state % 16) he (pinstate a b)
    (pinstate_lt a b)
  have g1 : (tlookup FullStep.ttable (e._state % 16) (pinstate a b)).getD 0
      = e₁._state := by
    rw [← tlookup_mod, hl₁]; rfl
  rw [g1] at hfact
  have g2 : (tlookup FullStep.ttable e₁._state (pinstate a b)).getD 0
      = e₂._state := by
    rw [hl₂]; rfl
  rw [g2] at hfact
  obtain ⟨hz, hfix⟩ := hfact
  have hstate : e₃._state = e₂._state :=
    Option.some.inj (hl₃.symm.trans hfix)
  have hevt2 : ev₂ = DIR_NONE := by rw [hv₂, hz]; rfl
  have hevt3 : ev₃ = DIR_NONE := by rw [hv₃, hstate, hz]; rfl
  exact ⟨hevt2, hevt3, hstate, hfix⟩

/-- Claim C6 witness: from the reachable state R_CW_FINAL, three polls
with sample 01 (at times 0): the second and third return None, the state
after the third equals the state after the second, and that state is a
fixed point of the sample. -/
theorem C6_repeated_poll_wit :
    DIR_NONE = DIR_NONE ∧ DIR_NONE = DIR_NONE ∧
    (⟨2, 3, 2, 500, 0, 0, 0⟩ : MD_REncoder)._state
      = (⟨2, 3, 2, 500, 0, 0, 0⟩ : MD_REncoder)._state ∧
    tlookup FullStep.ttable (⟨2, 3, 2, 500, 0, 0, 0⟩ : MD_REncoder)._state
        (pinstate true false)
      = some (⟨2, 3, 2, 500, 0, 0, 0⟩ : MD_REncoder)._state :=
  C6_repeated_poll ⟨2, 3, 1, 500, 0, 0, 0⟩ (by decide) true false 0 0 0
    DIR_NONE DIR_NONE DIR_NONE ⟨2, 3, 0, 500, 0, 0, 0⟩ ⟨2, 3, 2, 500, 0, 0, 0⟩
    ⟨2, 3, 2, 500, 0, 0, 0⟩ (by decide) (by decide) (by decide)

/-- Claim C7: in full-step mode, polling the rest state through 00, 01
and then the out-of-sequence 10 (skipping 11) returns None on every poll
and leaves the decoder exactly in its freshly-constructed configuration,
so every subsequent sequence decodes as from construction.  More
generally, each mid-cycle state is entered only on its own sample
(`entrySample`), and polling the physically implausible sample that flips
both lines at once (`entrySample s ^^^ 3`) routes the automaton straight
back to R_START without emitting. -/
theorem C7_invalid_resets (pa pb : Nat) :
    (runReads FullStep.ttable (mkEncoder pa pb) [inp00 0, inp01 0, inp10 0]
      = some ([DIR_NONE, DIR_NONE, DIR_NONE], mkEncoder pa pb)) ∧
    (∀ s, s < 7 → 1 ≤ s →
      tlookup FullStep.ttable s (entrySample s ^^^ 3) = some R_START) ∧
    (∀ r, r < 7 → ∀ x, x < 4 →
      1 ≤ ((tlookup FullStep.ttable r x).getD 0) % 16 →
      x = entrySample (((tlookup FullStep.ttable r x).getD 0) % 16)) := by
  refine ⟨?_, by decide, by decide⟩
  have r1 := read_at_zero_none FullStep.ttable (pa % 256) (pb % 256) 0 500 0 0
    0 false false (by norm_num) (by decide) (by decide)
  have r2 := read_at_zero_none FullStep.ttable (pa % 256) (pb % 256) 0 500 0 0
    2 true false (by norm_num) (by decide) (by decide)
  have r3 := read_at_zero_none FullStep.ttable (pa % 256) (pb % 256) 2 500 0 0
    0 false true (by norm_num) (by decide) (by decide)
  exact runReads_cons_some _ _ _ _ false false 0 DIR_NONE _ _ r1
    (runReads_cons_some _ _ _ _ true false 0 DIR_NONE _ _ r2
      (runReads_cons_some _ _ _ _ false true 0 DIR_NONE _ _ r3
        (runReads_nil _ _)))

/-- Claim C7 witness: the reset scenario at concrete pins, a concrete
implausible transition (from R_CW_BEGIN, entered on sample 01, jumping to
sample 10), and a concrete instance of the entry-sample grounding. -/
theorem C7_invalid_resets_wit :
    (runReads FullStep.ttable (mkEncoder 2 3) [inp00 0, inp01 0, inp10 0]
      = some ([DIR_NONE, DIR_NONE, DIR_NONE], mkEncoder 2 3)) ∧
    tlookup FullStep.ttable 2 (entrySample 2 ^^^ 3) = some R_START ∧
    1 = entrySample (((tlookup FullStep.ttable 0 1).getD 0) % 16) :=
  ⟨(C7_invalid_resets 2 3).1,
   (C7_invalid_resets 2 3).2.1 2 (by decide) (by decide),
   (C7_invalid_resets 2 3).2.2 0 (by decide) 1 (by decide) (by decide)⟩

/-- Claim C8 counterexample: in half-step mode, polling 00, 01, 11, 10,
00 from the initial state yields two events, one at each rest position,
but both are CounterClockwise, not the claimed Clockwise. -/
theorem C8_counterexample :
    (runReads HalfStep.ttable (mkEncoder 2 3)
        [inp00 0, inp01 0, inp11 0, inp10 0, inp00 0]).map (fun p => p.1)
      = some [DIR_NONE, DIR_NONE, DIR_CCW, DIR_NONE, DIR_CCW] ∧
    DIR_CCW ≠ DIR_CW := by decide

/-- Claim C8 (amended): in half-step mode events are emitted only at the
two rest samples 00 and 11.  The canonical sequence 00, 01, 11, 10, 00
yields exactly two events, one at each rest position, but both
CounterClockwise; the clockwise double emission arises on the sequence
01, 00, 10, 11, with one Clockwise event at the 00 sample and one at the
11 sample. -/
theorem C8_half_step :
    (∀ (e : MD_REncoder), e._state % 16 < 6 →
      ∀ (a b : Bool) (now ev : Nat) (e₁ : MD_REncoder),
        MD_REncoder.read HalfStep.ttable e a b now = some (ev, e₁) →
        ev ≠ DIR_NONE → pinstate a b = 0 ∨ pinstate a b = 3) ∧
    ((runReads HalfStep.ttable (mkEncoder 2 3)
        [inp00 0, inp01 0, inp11 0, inp10 0, inp00 0]).map (fun p => p.1)
      = some [DIR_NONE, DIR_NONE, DIR_CCW, DIR_NONE, DIR_CCW]) ∧
    ((runReads HalfStep.ttable (mkEncoder 2 3)
        [inp01 0, inp00 0, inp10 0, inp11 0]).map (fun p => p.1)
      = some [DIR_NONE, DIR_CW, DIR_NONE, DIR_CW]) := by
  refine ⟨?_, by decide, by decide⟩
  intro e he a b now ev e₁ h hev
  obtain ⟨hst, hevv, -⟩ := read_some_inv _ _ _ _ _ _ _ h
  have hget : (tlookup HalfStep.ttable (e._state % 16) (pinstate a b)).getD 0
      = e₁._state := by
    rw [← tlookup_mod, hst]; rfl
  apply half_emit_only_rest (e._state % 16) he (pinstate a b) (pinstate_lt a b)
  rw [hget, ← hevv]
  simpa [DIR_NONE] using hev

/-- Claim C8 witness: a concrete emitting poll (from half-step state
R_CW_BEGIN, both lines low) concludes the sample is a rest sample. -/
theorem C8_half_step_wit : pinstate false false = 0 ∨ pinstate false false = 3 :=
  C8_half_step.1 ⟨2, 3, 2, 500, 0, 0, 0⟩ (by decide) false false 0 DIR_CW
    ⟨2, 3, 0x13, 500, 1, 0, 0⟩ (by decide) (by decide)

/-- Claim C5: (a) on any poll whose elapsed time since the last boundary
has reached the window, the stored rate becomes count * (1000 / window)
in truncating integer arithmetic (division before multiplication), the
count is reset to 0 and the boundary timestamp becomes now; (b) feeding
n clockwise events within one window of W ms on a fresh encoder
configured with setPeriod W, then polling at elapsed time W with no
further event, makes the read speed n * (1000 / W), and a following
window with zero events decays the speed to 0. -/
theorem C5_speed_window :
    (∀ (e : MD_REncoder) (a b : Bool) (now st : Nat),
      tlookup FullStep.ttable e._state (pinstate a b) = some st →
      e._period ≤ elapsed e._timeLast now →
      MD_REncoder.read FullStep.ttable e a b now
        = some (st &&& 0x30,
            { e with
              _state := st,
              _count := 0,
              _spd := (if st &&& 0x30 ≠ 0 then (e._count + 1) % 65536
                  else e._count) * (1000 / e._period) % 65536,
              _timeLast := now % 4294967296 })) ∧
    (∀ (pa pb n W : Nat), 0 < W → W ≤ 1000 → n < 65536 →
      n * (1000 / W) < 65536 →
      ∃ (e₁ e₂ : MD_REncoder),
        runReads FullStep.ttable (setPeriod (mkEncoder pa pb) W)
            (cwCycles n ++ [inp11 W])
          = some (List.flatten
                (List.replicate n [DIR_NONE, DIR_NONE, DIR_NONE, DIR_CW])
              ++ [DIR_NONE], e₁) ∧
        speed e₁ = n * (1000 / W) ∧
        MD_REncoder.read FullStep.ttable e₁ true true (2 * W)
          = some (DIR_NONE, e₂) ∧
        speed e₂ = 0) := by
  constructor
  · exact fun e a b now st hst hb =>
      read_boundary FullStep.ttable e a b now st hst hb
  · intro pa pb n W hW hWle hn hprod
    have hWlt : W < 65536 := by omega
    have hmod : W % 65536 = W := Nat.mod_eq_of_lt hWlt
    have hsp : setPeriod (mkEncoder pa pb) W
        = ⟨pa % 256, pb % 256, 0, W, 0, 0, 0⟩ := by
      unfold setPeriod
      rw [hmod, if_pos ⟨by omega, by omega⟩]
      rfl
    have hrun := cwCycles_run (pa % 256) (pb % 256) 0 W hW n 0 0 (by norm_num)
      (by norm_num)
    rw [show (0 + n) % 65536 = n by omega] at hrun
    have hs₁ : (if n = 0 then (0 : Nat) else 16) % 16 = 0 := by
      cases n <;> simp
    have hstl : tlookup FullStep.ttable
        (⟨pa % 256, pb % 256, (if n = 0 then 0 else 16), W, n, 0, 0⟩ :
          MD_REncoder)._state (pinstate true true) = some 0 := by
      show tlookup FullStep.ttable (if n = 0 then (0 : Nat) else 16)
        (pinstate true true) = some 0
      rw [tlookup_mod, hs₁]
      decide
    have hbound : (⟨pa % 256, pb % 256, (if n = 0 then 0 else 16), W, n, 0,
        0⟩ : MD_REncoder)._period ≤ elapsed (⟨pa % 256, pb % 256,
        (if n = 0 then 0 else 16), W, n, 0, 0⟩ : MD_REncoder)._timeLast W := by
      show W ≤ elapsed 0 W
      unfold elapsed
      omega
    have hb1 := read_boundary FullStep.ttable
      ⟨pa % 256, pb % 256, (if n = 0 then 0 else 16), W, n, 0, 0⟩ true true W 0
      hstl hbound
    have hb1' : MD_REncoder.read FullStep.ttable
        ⟨pa % 256, pb % 256, (if n = 0 then 0 else 16), W, n, 0, 0⟩ true true W
        = some (DIR_NONE, ⟨pa % 256, pb % 256, 0, W, 0,
            n * (1000 / W) % 65536, W % 4294967296⟩) := by
      rw [hb1]; rfl
    have hmod32 : W % 4294967296 = W := Nat.mod_eq_of_lt (by omega)
    rw [hmod32, Nat.mod_eq_of_lt hprod] at hb1'
    have hone : runReads FullStep.ttable
        ⟨pa % 256, pb % 256, (if n = 0 then 0 else 16), W, n, 0, 0⟩ [inp11 W]
        = some ([DIR_NONE], ⟨pa % 256, pb % 256, 0, W, 0, n * (1000 / W), W⟩) :=
      runReads_cons_some _ _ _ _ true true W DIR_NONE _ _ hb1'
        (runReads_nil _ _)
    have hall := runReads_append_some FullStep.ttable
      ⟨pa % 256, pb % 256, 0, W, 0, 0, 0⟩ (cwCycles n) [inp11 W] _ _ _ _
      hrun hone
    have hstl2 : tlookup FullStep.ttable
        (⟨pa % 256, pb % 256, 0, W, 0, n * (1000 / W), W⟩ :
          MD_REncoder)._state (pinstate true true) = some 0 := by
      show tlookup FullStep.ttable 0 (pinstate true true) = some 0
      decide
    have hbound2 : (⟨pa % 256, pb % 256, 0, W, 0, n * (1000 / W), W⟩ :
        MD_REncoder)._period ≤ elapsed (⟨pa % 256, pb % 256, 0, W, 0,
          n * (1000 / W), W⟩ : MD_REncoder)._timeLast (2 * W) := by
      show W ≤ elapsed W (2 * W)
      unfold elapsed
      omega
    have hb2 := read_boundary FullStep.ttable
      ⟨pa % 256, pb % 256, 0, W, 0, n * (1000 / W), W⟩ true true (2 * W) 0
      hstl2 hbound2
    have hb2' : MD_REncoder.read FullStep.ttable
        ⟨pa % 256, pb % 256, 0, W, 0, n * (1000 / W), W⟩ true true (2 * W)
        = some (DIR_NONE, ⟨pa % 256, pb % 256, 0, W, 0,
            0 * (1000 / W) % 65536, (2 * W) % 4294967296⟩) := by
      rw [hb2]; rfl
    rw [Nat.zero_mul, Nat.zero_mod] at hb2'
    rw [hsp]
    exact ⟨⟨pa % 256, pb % 256, 0, W, 0, n * (1000 / W), W⟩,
      ⟨pa % 256, pb % 256, 0, W, 0, 0, (2 * W) % 4294967296⟩,
      hall, rfl, hb2', rfl⟩

/-- Claim C5 witness: with window 500 and three clockwise cycles at time
0, the boundary poll at time 500 stores the rate 3 * (1000 / 500) = 6 and
the empty window ending at time 1000 decays it to 0; and a concrete
boundary poll from state R_CW_FINAL with count 4 stores
5 * (1000 / 500) = 10. -/
theorem C5_speed_window_wit :
    MD_REncoder.read FullStep.ttable ⟨2, 3, 1, 500, 4, 0, 0⟩ true true 500
      = some (DIR_CW, ⟨2, 3, 16, 500, 0, 10, 500⟩) ∧
    (∃ (e₁ e₂ : MD_REncoder),
      runReads FullStep.ttable (setPeriod (mkEncoder 2 3) 500)
          (cwCycles 3 ++ [inp11 500])
        = some (List.flatten
              (List.replicate 3 [DIR_NONE, DIR_NONE, DIR_NONE, DIR_CW])
            ++ [DIR_NONE], e₁) ∧
      speed e₁ = 3 * (1000 / 500) ∧
      MD_REncoder.read FullStep.ttable e₁ true true (2 * 500)
        = some (DIR_NONE, e₂) ∧
      speed e₂ = 0) := by
  constructor
  · have h := C5_speed_window.1 ⟨2, 3, 1, 500, 4, 0, 0⟩ true true 500 16
      (by decide) (by decide)
    rw [h]; rfl
  · exact C5_speed_window.2 2 3 3 500 (by decide) (by decide) (by decide)
      (by decide)

/-- Claim C10: when a single poll both emits a nonzero event and crosses
the window boundary, that event is counted in the closing window's rate:
the accumulated count is incremented before the rate is computed from it
and before the count is reset to 0. -/
theorem C10_event_counted (e : MD_REncoder) (a b : Bool) (now st : Nat)
    (hst : tlookup FullStep.ttable e._state (pinstate a b) = some st)
    (hemit : st &&& 0x30 ≠ 0)
    (hb : e._period ≤ elapsed e._timeLast now) :
    MD_REncoder.read FullStep.ttable e a b now
      = some (st &&& 0x30,
          { e with
            _state := st,
            _count := 0,
            _spd := ((e._count + 1) % 65536) * (1000 / e._period) % 65536,
            _timeLast := now % 4294967296 }) := by
  rw [read_boundary FullStep.ttable e a b now st hst hb, if_pos hemit]

/-- Claim C10 witness: from state R_CCW_FINAL with accumulated count 9,
window 250 and last boundary 100, a poll with both lines high at time 350
emits CounterClockwise and the closing window's rate
10 * (1000 / 250) = 40 includes that event. -/
theorem C10_event_counted_wit :
    MD_REncoder.read FullStep.ttable ⟨2, 3, 5, 250, 9, 0, 100⟩ true true 350
      = some (DIR_CCW, ⟨2, 3, 32, 250, 0, 40, 350⟩) := by
  have h := C10_event_counted ⟨2, 3, 5, 250, 9, 0, 100⟩ true true 350 32
    (by decide) (by decide) (by decide)
  rw [h]; rfl
